import Mathlib

/-
Verification of the generational slot allocator and validated component
storage of `src/ecs.rs` (with the arena initialization pattern of
`src/lib.rs`).  Rust machine integers are embedded as `Nat` with explicit
reduction modulo the type's width where the source can overflow or
truncate: `IndexType = u16` (modulus 65536, appearing in the
`len() as IndexType` casts) and `GenerationType = u32` (modulus
4294967296, appearing in the `generation_counter += 1` increment).
Rust `Vec` is embedded as `List`, with `Vec::push` appending at the end
and `Vec::pop` removing the last element.  Fallible operations return
`Except`; a failing branch of the source never mutates, so the error
branches return no state.  The indexing `self.entries[index]` inside
`allocate` is unchecked in the source (a panic when out of bounds); it is
embedded with `List.set` / `List.getD`, and the theorem for the safety
claim proves the access in bounds under the free-list invariant, where the
two semantics agree.
-/

deriving instance DecidableEq for Except

/-- Rust `GenerationalIndex`: an index (`IndexType = u16`) paired with the
generation (`GenerationType = u32`) at which it was issued. -/
structure GenerationalIndex where
  index : Nat
  generation : Nat
deriving DecidableEq

/-- Rust `AllocatorEntry`: per-slot liveness flag and stored generation. -/
structure AllocatorEntry where
  is_live : Bool
  generation : Nat
deriving DecidableEq

/-- Rust `AllocatorEntry::new()`. -/
def AllocatorEntry.new : AllocatorEntry :=
  { is_live := false, generation := 0 }

/-- Rust `GenerationalIndexAllocator`: slot table, free list (a stack with
its top at the end, as a `Vec`), and the global generation counter. -/
structure GenerationalIndexAllocator where
  entries : List AllocatorEntry
  free : List Nat
  generation_counter : Nat
deriving DecidableEq

/-- Rust `GenerationalIndexAllocator::new(entries, free)`. -/
def GenerationalIndexAllocator.new (entries : List AllocatorEntry)
    (free : List Nat) : GenerationalIndexAllocator :=
  { entries := entries, free := free, generation_counter := 0 }

/-- Rust `AllocatorOutOfMemory(())`. -/
inductive AllocatorOutOfMemory where
  | mk : AllocatorOutOfMemory
deriving DecidableEq

/-- Rust `DeallocationError`. -/
inductive DeallocationError where
  | IndexOOB : DeallocationError
  | GenerationMismatch : DeallocationError
  | AlreadyDeallocated : DeallocationError
deriving DecidableEq

/-- Rust `GenerationalIndexError`. -/
inductive GenerationalIndexError where
  | IndexOOB : GenerationalIndexError
  | GenerationMismatch : GenerationalIndexError
  | NotLive : GenerationalIndexError
deriving DecidableEq

/-- The slot entry at index `i` (the source's `self.entries[i]`; the
default is irrelevant wherever the access is in bounds). -/
def entryAt (a : GenerationalIndexAllocator) (i : Nat) : AllocatorEntry :=
  a.entries.getD i AllocatorEntry.new

/-- Rust `GenerationalIndexAllocator::allocate`: pop the free list; on
success increment the global counter (u32), stamp the slot with the new
generation, mark it live, and return the handle. -/
def allocate (a : GenerationalIndexAllocator) :
    Except AllocatorOutOfMemory (GenerationalIndex × GenerationalIndexAllocator) :=
  match a.free.getLast? with
  | some index =>
      let gc := (a.generation_counter + 1) % 4294967296
      .ok (⟨index, gc⟩,
        { entries := a.entries.set index ⟨true, gc⟩,
          free := a.free.dropLast,
          generation_counter := gc })
  | none => .error .mk

/-- Rust `GenerationalIndexAllocator::deallocate`: bounds check (against
`entries.len() as IndexType`), then generation check, then liveness check;
on success clear `is_live` and push the index back on the free list. -/
def deallocate (a : GenerationalIndexAllocator) (gi : GenerationalIndex) :
    Except DeallocationError GenerationalIndexAllocator :=
  if a.entries.length % 65536 ≤ gi.index then
    .error .IndexOOB
  else if (entryAt a gi.index).generation ≠ gi.generation then
    .error .GenerationMismatch
  else if (entryAt a gi.index).is_live = false then
    .error .AlreadyDeallocated
  else
    .ok { entries := a.entries.set gi.index ⟨false, (entryAt a gi.index).generation⟩,
          free := a.free ++ [gi.index],
          generation_counter := a.generation_counter }

/-- Rust `GenerationalIndexAllocator::is_live`: bounds check, then report
the slot's liveness flag (ignoring the handle's generation). -/
def is_live (a : GenerationalIndexAllocator) (gi : GenerationalIndex) :
    Except GenerationalIndexError Bool :=
  if a.entries.length % 65536 ≤ gi.index then
    .error .IndexOOB
  else
    .ok (entryAt a gi.index).is_live

/-- Rust `GenerationalIndexArray<T>(pub Vec<T>)`: a component store. -/
structure GenerationalIndexArray (α : Type) where
  vals : List α
deriving DecidableEq

/-- Rust `GenerationalIndexArray::set`: bounds check against the store,
then the allocator's liveness check, then the generation check; on success
write the value at the handle's slot index. -/
def GenerationalIndexArray.set {α : Type} (arr : GenerationalIndexArray α)
    (gi : GenerationalIndex) (a : GenerationalIndexAllocator) (v : α) :
    Except GenerationalIndexError (GenerationalIndexArray α) :=
  if arr.vals.length % 65536 ≤ gi.index then
    .error .IndexOOB
  else
    match is_live a gi with
    | .ok true =>
        if gi.generation ≠ (entryAt a gi.index).generation then
          .error .GenerationMismatch
        else
          .ok ⟨arr.vals.set gi.index v⟩
    | .ok false => .error .NotLive
    | .error e => .error e

/-- Rust `GenerationalIndexArray::get`: same validation as `set`,
returning the stored value on success. -/
def GenerationalIndexArray.get {α : Type} (arr : GenerationalIndexArray α)
    (gi : GenerationalIndex) (a : GenerationalIndexAllocator) :
    Except GenerationalIndexError α :=
  if h : arr.vals.length % 65536 ≤ gi.index then
    .error .IndexOOB
  else
    match is_live a gi with
    | .ok true =>
        if (entryAt a gi.index).generation ≠ gi.generation then
          .error .GenerationMismatch
        else
          .ok (arr.vals.get ⟨gi.index, by omega⟩)
    | .ok false => .error .NotLive
    | .error e => .error e

/-- Rust `GenerationalIndexArray::get_mut`: identical validation to `get`
(the mutable borrow it returns is outside a pure embedding; the value it
would expose is returned). -/
def GenerationalIndexArray.get_mut {α : Type} (arr : GenerationalIndexArray α)
    (gi : GenerationalIndex) (a : GenerationalIndexAllocator) :
    Except GenerationalIndexError α :=
  if h : arr.vals.length % 65536 ≤ gi.index then
    .error .IndexOOB
  else
    match is_live a gi with
    | .ok true =>
        if gi.generation ≠ (entryAt a gi.index).generation then
          .error .GenerationMismatch
        else
          .ok (arr.vals.get ⟨gi.index, by omega⟩)
    | .ok false => .error .NotLive
    | .error e => .error e

/-- The arena initialization of `src/lib.rs` (`update`, first frame): `c`
entries `AllocatorEntry::new()`, the free list `0, 1, ..., c-1` pushed in
order, and `generation_counter = 0` via `GenerationalIndexAllocator::new`. -/
def initAllocator (c : Nat) : GenerationalIndexAllocator :=
  GenerationalIndexAllocator.new (List.replicate c AllocatorEntry.new) (List.range c)

/-- The post-state of a `deallocate` call: the returned state on success,
the unchanged input state on failure (the source's error branches return
before any mutation). -/
def deallocState (a : GenerationalIndexAllocator) (gi : GenerationalIndex) :
    GenerationalIndexAllocator :=
  match deallocate a gi with
  | .ok a' => a'
  | .error _ => a

lemma getD_set_self {α : Type} (l : List α) (i : Nat) (v d : α)
    (h : i < l.length) : (l.set i v).getD i d = v := by
  simp [List.getD_eq_getElem?_getD, List.getElem?_set_self h]

lemma getD_set_ne {α : Type} (l : List α) {i j : Nat} (v d : α)
    (h : i ≠ j) : (l.set i v).getD j d = l.getD j d := by
  simp [List.getD_eq_getElem?_getD, List.getElem?_set_ne h]

lemma eq_dropLast_append_of_getLast? {α : Type} {l : List α} {x : α}
    (h : l.getLast? = some x) : l = l.dropLast ++ [x] := by
  have hne : l ≠ [] := by
    intro he
    subst he
    simp at h
  have h2 := List.getLast?_eq_getLast l hne
  rw [h2, Option.some.injEq] at h
  rw [← h]
  exact (List.dropLast_append_getLast hne).symm

lemma allocate_ok_iff (a : GenerationalIndexAllocator)
    (p : GenerationalIndex × GenerationalIndexAllocator) :
    allocate a = .ok p ↔
      ∃ idx, a.free.getLast? = some idx ∧
        p = (⟨idx, (a.generation_counter + 1) % 4294967296⟩,
             ⟨a.entries.set idx ⟨true, (a.generation_counter + 1) % 4294967296⟩,
              a.free.dropLast, (a.generation_counter + 1) % 4294967296⟩) := by
  unfold allocate
  cases hfl : a.free.getLast? with
  | none => simp
  | some idx =>
      simp only [Except.ok.injEq, Option.some.injEq]
      constructor
      · intro h
        exact ⟨idx, rfl, h.symm⟩
      · rintro ⟨idx', hidx, rfl⟩
        subst hidx
        rfl

lemma deallocate_ok_iff (a : GenerationalIndexAllocator) (gi : GenerationalIndex)
    (a' : GenerationalIndexAllocator) :
    deallocate a gi = .ok a' ↔
      gi.index < a.entries.length % 65536 ∧
      (entryAt a gi.index).generation = gi.generation ∧
      (entryAt a gi.index).is_live = true ∧
      a' = ⟨a.entries.set gi.index ⟨false, (entryAt a gi.index).generation⟩,
            a.free ++ [gi.index], a.generation_counter⟩ := by
  unfold deallocate
  split_ifs with h1 h2 h3
  · refine iff_of_false (by simp) ?_
    rintro ⟨hi, -, -, -⟩
    exact absurd hi (by omega)
  · refine iff_of_false (by simp) ?_
    rintro ⟨-, hg, -, -⟩
    exact h2 hg
  · refine iff_of_false (by simp) ?_
    rintro ⟨-, -, hl, -⟩
    rw [h3] at hl
    simp at hl
  · simp only [Except.ok.injEq]
    constructor
    · intro h
      exact ⟨by omega, not_ne_iff.mp h2, by simpa using h3, h.symm⟩
    · rintro ⟨-, -, -, rfl⟩
      rfl

lemma map_gen_set (l : List AllocatorEntry) (i : Nat) (b : Bool)
    (h : i < l.length) :
    (l.set i ⟨b, (l.getD i AllocatorEntry.new).generation⟩).map
        AllocatorEntry.generation = l.map AllocatorEntry.generation := by
  apply List.ext_getElem?
  intro n
  rw [List.getElem?_map, List.getElem?_map]
  by_cases hn : i = n
  · subst hn
    rw [List.getElem?_set_self h, List.getElem?_eq_getElem h,
        List.getD_eq_getElem _ _ h]
    simp
  · rw [List.getElem?_set_ne hn]

/-- C7: `deallocate` — whether it succeeds or fails — leaves
`generation_counter` and every slot's stored generation unchanged; on
success it only clears the handle's slot's `is_live` flag, pushes the
slot index onto the free list, and leaves every other slot entry
unchanged. -/
theorem deallocate_frame (a : GenerationalIndexAllocator) (gi : GenerationalIndex) :
    (deallocState a gi).generation_counter = a.generation_counter ∧
    (deallocState a gi).entries.map AllocatorEntry.generation =
      a.entries.map AllocatorEntry.generation ∧
    ∀ a', deallocate a gi = .ok a' →
      a'.entries = a.entries.set gi.index
          ⟨false, (entryAt a gi.index).generation⟩ ∧
      a'.free = a.free ++ [gi.index] ∧
      (entryAt a' gi.index).is_live = false ∧
      ∀ j, j ≠ gi.index → a'.entries[j]? = a.entries[j]? := by
  refine ⟨?_, ?_, ?_⟩
  · unfold deallocState
    cases h : deallocate a gi with
    | error e => rfl
    | ok a' =>
        obtain ⟨hi, hg, hl, rfl⟩ := (deallocate_ok_iff a gi a').mp h
        rfl
  · unfold deallocState
    cases h : deallocate a gi with
    | error e => rfl
    | ok a' =>
        obtain ⟨hi, hg, hl, rfl⟩ := (deallocate_ok_iff a gi a').mp h
        simp only [entryAt]
        exact map_gen_set a.entries gi.index false (by omega)
  · intro a' h
    obtain ⟨hi, hg, hl, rfl⟩ := (deallocate_ok_iff a gi a').mp h
    refine ⟨rfl, rfl, ?_, ?_⟩
    · simp only [entryAt]
      rw [getD_set_self _ _ _ _ (by omega : gi.index < a.entries.length)]
    · intro j hj
      exact List.getElem?_set_ne (fun he => hj he.symm)

/-- C7 witness: the frame conditions at a concrete one-slot allocator and
handle. -/
theorem deallocate_frame_witness :
    (deallocState ⟨[⟨true, 1⟩], [], 1⟩ ⟨0, 1⟩).generation_counter = 1 ∧
    (deallocState ⟨[⟨true, 1⟩], [], 1⟩ ⟨0, 1⟩).entries.map
        AllocatorEntry.generation = [1] ∧
    (⟨[⟨false, 1⟩], [0], 1⟩ : GenerationalIndexAllocator).free = [] ++ [0] := by
  have h := deallocate_frame ⟨[⟨true, 1⟩], [], 1⟩ ⟨0, 1⟩
  have h3 := (h.2.2 ⟨[⟨false, 1⟩], [0], 1⟩ (by decide)).2.1
  exact ⟨h.1, h.2.1, h3⟩

lemma is_live_ok_true (a : GenerationalIndexAllocator) (gi : GenerationalIndex)
    (hab : gi.index < a.entries.length % 65536)
    (hlive : (entryAt a gi.index).is_live = true) :
    is_live a gi = .ok true := by
  unfold is_live
  rw [if_neg (by omega), hlive]

lemma get_ok_of_valid {α : Type} (arr : GenerationalIndexArray α)
    (a : GenerationalIndexAllocator) (gi : GenerationalIndex)
    (hb : gi.index < arr.vals.length % 65536)
    (hab : gi.index < a.entries.length % 65536)
    (hlive : (entryAt a gi.index).is_live = true)
    (hgen : (entryAt a gi.index).generation = gi.generation) :
    ∃ w, arr.get gi a = .ok w := by
  have hl := is_live_ok_true a gi hab hlive
  refine ⟨arr.vals.get ⟨gi.index, by omega⟩, ?_⟩
  unfold GenerationalIndexArray.get
  rw [dif_neg (by omega : ¬(arr.vals.length % 65536 ≤ gi.index))]
  simp only [hl]
  rw [if_neg (not_ne_iff.mpr hgen)]

lemma set_ok_of_valid {α : Type} (arr : GenerationalIndexArray α)
    (a : GenerationalIndexAllocator) (gi : GenerationalIndex) (v : α)
    (hb : gi.index < arr.vals.length % 65536)
    (hab : gi.index < a.entries.length % 65536)
    (hlive : (entryAt a gi.index).is_live = true)
    (hgen : (entryAt a gi.index).generation = gi.generation) :
    arr.set gi a v = .ok ⟨arr.vals.set gi.index v⟩ := by
  have hl := is_live_ok_true a gi hab hlive
  unfold GenerationalIndexArray.set
  rw [if_neg (by omega : ¬(arr.vals.length % 65536 ≤ gi.index))]
  simp only [hl]
  rw [if_neg (not_ne_iff.mpr hgen.symm)]

lemma get_genMismatch {α : Type} (arr : GenerationalIndexArray α)
    (a : GenerationalIndexAllocator) (gi : GenerationalIndex)
    (hb : gi.index < arr.vals.length % 65536)
    (hab : gi.index < a.entries.length % 65536)
    (hlive : (entryAt a gi.index).is_live = true)
    (hgen : (entryAt a gi.index).generation ≠ gi.generation) :
    arr.get gi a = .error .GenerationMismatch := by
  have hl := is_live_ok_true a gi hab hlive
  unfold GenerationalIndexArray.get
  rw [dif_neg (by omega : ¬(arr.vals.length % 65536 ≤ gi.index))]
  simp only [hl]
  rw [if_pos hgen]

lemma set_genMismatch {α : Type} (arr : GenerationalIndexArray α)
    (a : GenerationalIndexAllocator) (gi : GenerationalIndex) (v : α)
    (hb : gi.index < arr.vals.length % 65536)
    (hab : gi.index < a.entries.length % 65536)
    (hlive : (entryAt a gi.index).is_live = true)
    (hgen : (entryAt a gi.index).generation ≠ gi.generation) :
    arr.set gi a v = .error .GenerationMismatch := by
  have hl := is_live_ok_true a gi hab hlive
  unfold GenerationalIndexArray.set
  rw [if_neg (by omega : ¬(arr.vals.length % 65536 ≤ gi.index))]
  simp only [hl]
  rw [if_pos (Ne.symm hgen)]

lemma deallocate_genMismatch (a : GenerationalIndexAllocator)
    (gi : GenerationalIndex)
    (hab : gi.index < a.entries.length % 65536)
    (hgen : (entryAt a gi.index).generation ≠ gi.generation) :
    deallocate a gi = .error .GenerationMismatch := by
  unfold deallocate
  rw [if_neg (by omega : ¬(a.entries.length % 65536 ≤ gi.index)), if_pos hgen]

/-- C5: on any component store, for any handle that is live and
generation-matching in the allocator and any payload value, `set`
succeeds, and `get` on the resulting store returns a value equal to the
one written (stores of other component types are separate values the
operation never touches). -/
theorem set_get_round_trip {α : Type} (arr : GenerationalIndexArray α)
    (a : GenerationalIndexAllocator) (gi : GenerationalIndex) (v : α)
    (hb : gi.index < arr.vals.length % 65536)
    (hab : gi.index < a.entries.length % 65536)
    (hlive : (entryAt a gi.index).is_live = true)
    (hgen : (entryAt a gi.index).generation = gi.generation) :
    ∃ arr', arr.set gi a v = .ok arr' ∧ arr'.get gi a = .ok v := by
  have hl := is_live_ok_true a gi hab hlive
  refine ⟨⟨arr.vals.set gi.index v⟩, ?_, ?_⟩
  · unfold GenerationalIndexArray.set
    rw [if_neg (by omega), hl, if_neg (not_ne_iff.mpr hgen.symm)]
  · unfold GenerationalIndexArray.get
    have hlen : ¬((arr.vals.set gi.index v).length % 65536 ≤ gi.index) := by
      rw [List.length_set]
      omega
    have hset : gi.index < (arr.vals.set gi.index v).length := by
      rw [List.length_set]
      omega
    rw [dif_neg hlen]
    simp only [hl]
    rw [if_neg (not_ne_iff.mpr hgen)]
    simp only [List.get_eq_getElem]
    rw [List.getElem_set_self hset]

/-- C5 witness: a concrete round trip on a one-slot store. -/
theorem set_get_round_trip_witness :
    ∃ arr', GenerationalIndexArray.set ⟨[0]⟩ ⟨0, 1⟩ ⟨[⟨true, 1⟩], [], 1⟩ 7 = .ok arr' ∧
      arr'.get ⟨0, 1⟩ ⟨[⟨true, 1⟩], [], 1⟩ = .ok 7 :=
  set_get_round_trip ⟨[0]⟩ ⟨[⟨true, 1⟩], [], 1⟩ ⟨0, 1⟩ 7
    (by decide) (by decide) (by decide) (by decide)

/-- C4: a second `deallocate` of a handle whose deallocation just
succeeded (its slot not reallocated in between) fails with
`AlreadyDeallocated`, not `IndexOOB` and not `GenerationMismatch`. -/
theorem double_free_detected (a a' : GenerationalIndexAllocator)
    (gi : GenerationalIndex) (h : deallocate a gi = .ok a') :
    deallocate a' gi = .error DeallocationError.AlreadyDeallocated := by
  unfold deallocate at h
  split_ifs at h with h1 h2 h3
  simp only [Except.ok.injEq] at h
  subst h
  have hlt : gi.index < a.entries.length := by omega
  have hg : (entryAt a gi.index).generation = gi.generation := by
    exact not_ne_iff.mp h2
  unfold deallocate
  simp only [entryAt, List.length_set] at *
  rw [if_neg h1, getD_set_self _ _ _ _ hlt, if_neg (not_ne_iff.mpr hg), if_pos rfl]

/-- C4 witness: a concrete double free on a capacity-1 arena. -/
theorem double_free_detected_witness :
    deallocate ⟨[⟨false, 1⟩], [0], 1⟩ ⟨0, 1⟩ =
      .error DeallocationError.AlreadyDeallocated :=
  double_free_detected ⟨[⟨true, 1⟩], [], 1⟩ ⟨[⟨false, 1⟩], [0], 1⟩ ⟨0, 1⟩ (by decide)

/-- C2: after handle `H` on slot `S` is deallocated and a subsequent
`allocate` returns `H2` reusing slot `S`, `get`, `set` and `deallocate`
with `H` all fail with `GenerationMismatch` (not `AlreadyDeallocated`,
not `NotLive`), while `get`, `set` and `deallocate` with `H2` succeed. -/
theorem stale_handle_rejection {α : Type} (arr : GenerationalIndexArray α)
    (a0 a1 a2 a3 : GenerationalIndexAllocator) (H H2 : GenerationalIndex)
    (v : α)
    (hlen : arr.vals.length = a0.entries.length)
    (hA0 : allocate a0 = .ok (H, a1))
    (hD : deallocate a1 H = .ok a2)
    (hA2 : allocate a2 = .ok (H2, a3)) :
    H2.index = H.index ∧
    arr.get H a3 = .error .GenerationMismatch ∧
    (∀ v', arr.set H a3 v' = .error .GenerationMismatch) ∧
    deallocate a3 H = .error .GenerationMismatch ∧
    (∃ w, arr.get H2 a3 = .ok w) ∧
    (∃ arr', arr.set H2 a3 v = .ok arr') ∧
    (∃ a4, deallocate a3 H2 = .ok a4) := by
  obtain ⟨S, hS, hp⟩ := (allocate_ok_iff a0 (H, a1)).mp hA0
  rw [Prod.mk.injEq] at hp
  obtain ⟨hH, hA1⟩ := hp
  subst hH
  subst hA1
  obtain ⟨hDi, hDg, hDl, ha2⟩ := (deallocate_ok_iff _ _ _).mp hD
  subst ha2
  obtain ⟨S', hS', hp2⟩ := (allocate_ok_iff _ (H2, a3)).mp hA2
  rw [List.getLast?_concat, Option.some.injEq] at hS'
  subst hS'
  rw [Prod.mk.injEq] at hp2
  obtain ⟨hH2, hA3⟩ := hp2
  subst hH2
  subst hA3
  dsimp only at hDi hDg hDl ⊢
  rw [List.length_set] at hDi
  have hSlen : S < a0.entries.length := by omega
  have hg1lt : (a0.generation_counter + 1) % 4294967296 < 4294967296 := by omega
  rw [List.set_set, List.set_set]
  have hE3 : entryAt
      ⟨a0.entries.set S
          ⟨true, ((a0.generation_counter + 1) % 4294967296 + 1) % 4294967296⟩,
        (a0.free.dropLast ++ [S]).dropLast,
        ((a0.generation_counter + 1) % 4294967296 + 1) % 4294967296⟩ S =
      ⟨true, ((a0.generation_counter + 1) % 4294967296 + 1) % 4294967296⟩ := by
    dsimp only [entryAt]
    exact getD_set_self _ _ _ _ hSlen
  have hab3 : S < (a0.entries.set S
      ⟨true, ((a0.generation_counter + 1) % 4294967296 + 1) % 4294967296⟩).length
        % 65536 := by
    rw [List.length_set]
    omega
  have hb : S < arr.vals.length % 65536 := by
    rw [hlen]
    omega
  have hgenne : (((a0.generation_counter + 1) % 4294967296 + 1) % 4294967296)
      ≠ (a0.generation_counter + 1) % 4294967296 := by
    omega
  refine ⟨rfl, ?_, ?_, ?_, ?_, ?_, ?_⟩
  · exact get_genMismatch arr _ _ hb hab3 (by rw [hE3]) (by rw [hE3]; exact hgenne)
  · intro v'
    exact set_genMismatch arr _ _ v' hb hab3 (by rw [hE3]) (by rw [hE3]; exact hgenne)
  · exact deallocate_genMismatch _ _ hab3 (by rw [hE3]; exact hgenne)
  · exact get_ok_of_valid arr _ _ hb hab3 (by rw [hE3]) (by rw [hE3])
  · exact ⟨_, set_ok_of_valid arr _ _ v hb hab3 (by rw [hE3]) (by rw [hE3])⟩
  · exact ⟨_, (deallocate_ok_iff _ _ _).mpr ⟨hab3, (by rw [hE3]), (by rw [hE3]), rfl⟩⟩

/-- C2 witness: the stale-handle scenario run concretely on a capacity-1
arena (slot 0 is deallocated and reused). -/
theorem stale_handle_rejection_witness :
    (⟨0, 2⟩ : GenerationalIndex).index = (⟨0, 1⟩ : GenerationalIndex).index ∧
    GenerationalIndexArray.get ⟨[0]⟩ ⟨0, 1⟩ ⟨[⟨true, 2⟩], [], 2⟩ =
      .error .GenerationMismatch ∧
    (∀ v', GenerationalIndexArray.set ⟨[0]⟩ ⟨0, 1⟩ ⟨[⟨true, 2⟩], [], 2⟩ v' =
      .error .GenerationMismatch) ∧
    deallocate ⟨[⟨true, 2⟩], [], 2⟩ ⟨0, 1⟩ = .error .GenerationMismatch ∧
    (∃ w, GenerationalIndexArray.get ⟨[0]⟩ ⟨0, 2⟩ ⟨[⟨true, 2⟩], [], 2⟩ = .ok w) ∧
    (∃ arr', GenerationalIndexArray.set ⟨[0]⟩ ⟨0, 2⟩ ⟨[⟨true, 2⟩], [], 2⟩ 7 =
      .ok arr') ∧
    (∃ a4, deallocate ⟨[⟨true, 2⟩], [], 2⟩ ⟨0, 2⟩ = .ok a4) :=
  stale_handle_rejection ⟨[0]⟩ (initAllocator 1) ⟨[⟨true, 1⟩], [], 1⟩
    ⟨[⟨false, 1⟩], [0], 1⟩ ⟨[⟨true, 2⟩], [], 2⟩ ⟨0, 1⟩ ⟨0, 2⟩ 7
    (by decide) (by decide) (by decide) (by decide)

/-- `n` consecutive `allocate` calls, `none` if any of them fails. -/
def iterAlloc : GenerationalIndexAllocator → Nat → Option GenerationalIndexAllocator
  | a, 0 => some a
  | a, n + 1 =>
      match allocate a with
      | .ok (_, a') => iterAlloc a' n
      | .error _ => none

lemma iterAlloc_of_le (n : Nat) : ∀ (a : GenerationalIndexAllocator),
    n ≤ a.free.length →
    ∃ a', iterAlloc a n = some a' ∧ a'.free.length = a.free.length - n := by
  induction n with
  | zero =>
      intro a _
      exact ⟨a, rfl, rfl⟩
  | succ n ih =>
      intro a h
      cases hfl : a.free.getLast? with
      | none =>
          rw [List.getLast?_eq_none_iff] at hfl
          rw [hfl] at h
          simp at h
      | some x =>
          have hstep : allocate a =
              .ok (⟨x, (a.generation_counter + 1) % 4294967296⟩,
                ⟨a.entries.set x ⟨true, (a.generation_counter + 1) % 4294967296⟩,
                 a.free.dropLast, (a.generation_counter + 1) % 4294967296⟩) := by
            unfold allocate
            rw [hfl]
          have hlen : a.free.dropLast.length = a.free.length - 1 :=
            List.length_dropLast _
          obtain ⟨a', ha', hl⟩ := ih
            ⟨a.entries.set x ⟨true, (a.generation_counter + 1) % 4294967296⟩,
             a.free.dropLast, (a.generation_counter + 1) % 4294967296⟩
            (by dsimp only; omega)
          refine ⟨a', ?_, ?_⟩
          · unfold iterAlloc
            rw [hstep]
            exact ha'
          · rw [hl]
            dsimp only
            omega

/-- C3: with a free list holding every index `0..C` exactly once, `C`
consecutive `allocate` calls all succeed, the `(C+1)`-th fails with the
allocator-exhausted error, and after one successful `deallocate` the
retried `allocate` succeeds. -/
theorem capacity_bound (a : GenerationalIndexAllocator) (C : Nat)
    (hperm : a.free.Perm (List.range C)) :
    ∃ aC, iterAlloc a C = some aC ∧
      allocate aC = .error .mk ∧
      ∀ gi a', deallocate aC gi = .ok a' →
        ∃ h2 a'', allocate a' = .ok (h2, a'') := by
  have hlen : a.free.length = C := by rw [hperm.length_eq, List.length_range]
  obtain ⟨aC, hiter, hfree⟩ := iterAlloc_of_le C a (by omega)
  have hnil : aC.free = [] := List.length_eq_zero.mp (by omega)
  refine ⟨aC, hiter, ?_, ?_⟩
  · unfold allocate
    rw [hnil]
    rfl
  · intro gi a' hd
    obtain ⟨-, -, -, rfl⟩ := (deallocate_ok_iff _ _ _).mp hd
    have hgl : (aC.free ++ [gi.index]).getLast? = some gi.index :=
      List.getLast?_concat _
    exact ⟨_, _, by unfold allocate; rw [hgl]⟩

/-- C3 witness: the capacity bound run concretely at capacity 1. -/
theorem capacity_bound_witness :
    ∃ aC, iterAlloc (initAllocator 1) 1 = some aC ∧
      allocate aC = .error .mk ∧
      ∀ gi a', deallocate aC gi = .ok a' →
        ∃ h2 a'', allocate a' = .ok (h2, a'') :=
  capacity_bound (initAllocator 1) 1 (by decide)

/-- The free-list/liveness invariant: each slot index is on the free list
at most once, free indices are in bounds, and an in-bounds slot index is
on the free list exactly when its `is_live` flag is false. -/
def Invariant (a : GenerationalIndexAllocator) : Prop :=
  a.free.Nodup ∧ (∀ i ∈ a.free, i < a.entries.length) ∧
  (∀ i, i < a.entries.length → (i ∈ a.free ↔ (entryAt a i).is_live = false))

lemma invariant_init (c : Nat) : Invariant (initAllocator c) := by
  refine ⟨List.nodup_range c, ?_, ?_⟩
  · intro i hi
    simp only [initAllocator, GenerationalIndexAllocator.new] at hi
    simp only [initAllocator, GenerationalIndexAllocator.new,
      List.length_replicate]
    rwa [List.mem_range] at hi
  · intro i hilen
    simp only [initAllocator, GenerationalIndexAllocator.new,
      List.length_replicate] at hilen
    simp only [initAllocator, GenerationalIndexAllocator.new, entryAt,
      List.mem_range]
    have he : (List.replicate c AllocatorEntry.new).getD i AllocatorEntry.new =
        AllocatorEntry.new := by
      rw [List.getD_eq_getElem _ _ (by simpa using hilen),
        List.getElem_replicate]
    rw [he]
    simp [AllocatorEntry.new, hilen]

lemma invariant_allocate (a : GenerationalIndexAllocator)
    (h : GenerationalIndex) (a' : GenerationalIndexAllocator)
    (hinv : Invariant a) (ha : allocate a = .ok (h, a')) : Invariant a' := by
  obtain ⟨hnd, hbd, hiff⟩ := hinv
  obtain ⟨S, hS, hp⟩ := (allocate_ok_iff a (h, a')).mp ha
  rw [Prod.mk.injEq] at hp
  obtain ⟨-, ha'⟩ := hp
  subst ha'
  have hfree : a.free = a.free.dropLast ++ [S] := eq_dropLast_append_of_getLast? hS
  have hSmem : S ∈ a.free := by
    rw [hfree]
    simp
  have hSlen : S < a.entries.length := hbd S hSmem
  have hnd' : (a.free.dropLast ++ [S]).Nodup := by rwa [← hfree]
  rw [List.nodup_append] at hnd'
  obtain ⟨hnd1, -, hdisj⟩ := hnd'
  have hSnot : S ∉ a.free.dropLast := fun hm => hdisj hm (by simp)
  refine ⟨hnd1, ?_, ?_⟩
  · intro i hi
    dsimp only
    rw [List.length_set]
    exact hbd i (List.Sublist.mem hi (List.dropLast_sublist a.free))
  · intro i hilen
    dsimp only at hilen ⊢
    rw [List.length_set] at hilen
    simp only [entryAt]
    by_cases hiS : i = S
    · subst hiS
      rw [getD_set_self _ _ _ _ hSlen]
      simp [hSnot]
    · rw [getD_set_ne _ _ _ (fun he => hiS he.symm)]
      constructor
      · intro hm
        have hmem : i ∈ a.free := by
          rw [hfree]
          exact List.mem_append_left _ hm
        exact (hiff i hilen).mp hmem
      · intro hl
        have hmem := (hiff i hilen).mpr hl
        rw [hfree] at hmem
        rcases List.mem_append.mp hmem with hm | hm
        · exact hm
        · simp at hm
          exact absurd hm hiS

lemma invariant_deallocate (a : GenerationalIndexAllocator)
    (gi : GenerationalIndex) (a' : GenerationalIndexAllocator)
    (hinv : Invariant a) (hd : deallocate a gi = .ok a') : Invariant a' := by
  obtain ⟨hnd, hbd, hiff⟩ := hinv
  obtain ⟨hi, hg, hl, rfl⟩ := (deallocate_ok_iff _ _ _).mp hd
  have hlen : gi.index < a.entries.length := by omega
  have hnot : gi.index ∉ a.free := by
    intro hm
    have hmf := (hiff _ hlen).mp hm
    rw [hl] at hmf
    simp at hmf
  refine ⟨?_, ?_, ?_⟩
  · rw [List.nodup_append]
    refine ⟨hnd, List.nodup_singleton _, fun x hx hx2 => ?_⟩
    simp only [List.mem_singleton] at hx2
    subst hx2
    exact hnot hx
  · intro i him
    dsimp only at him ⊢
    rw [List.length_set]
    rcases List.mem_append.mp him with hm | hm
    · exact hbd i hm
    · simp only [List.mem_singleton] at hm
      subst hm
      exact hlen
  · intro i hilen
    dsimp only at hilen ⊢
    rw [List.length_set] at hilen
    simp only [entryAt]
    by_cases hiS : i = gi.index
    · subst hiS
      rw [getD_set_self _ _ _ _ hlen]
      simp
    · rw [getD_set_ne _ _ _ (fun he => hiS he.symm), List.mem_append]
      constructor
      · rintro (hm | hm)
        · exact (hiff i hilen).mp hm
        · simp only [List.mem_singleton] at hm
          exact absurd hm hiS
      · intro hlv
        exact Or.inl ((hiff i hilen).mpr hlv)

/-- C6: the free-list invariant — each slot index on the free list at most
once, and an in-bounds index on the free list exactly when its slot is not
live — holds for the initialized arena and is preserved by every
successful `allocate` and `deallocate` (failing calls and the read-only
`is_live` return no modified state). -/
theorem free_list_invariant (C : Nat) (a a₁ a₂ : GenerationalIndexAllocator)
    (h h2 : GenerationalIndex) :
    Invariant (initAllocator C) ∧
    (Invariant a → allocate a = .ok (h, a₁) → Invariant a₁) ∧
    (Invariant a → deallocate a h2 = .ok a₂ → Invariant a₂) :=
  ⟨invariant_init C, fun hi ha => invariant_allocate a h a₁ hi ha,
   fun hi hd => invariant_deallocate a h2 a₂ hi hd⟩

instance (a : GenerationalIndexAllocator) : Decidable (Invariant a) := by
  unfold Invariant
  infer_instance

/-- C6 witness: the invariant holds concretely for the initial arena and
after a concrete `allocate` and a concrete `deallocate`. -/
theorem free_list_invariant_witness :
    Invariant (initAllocator 2) ∧
    Invariant ⟨[⟨true, 2⟩, ⟨true, 1⟩], [], 2⟩ ∧
    Invariant ⟨[AllocatorEntry.new, ⟨false, 1⟩], [0, 1], 1⟩ := by
  have hfull := free_list_invariant 2 ⟨[AllocatorEntry.new, ⟨true, 1⟩], [0], 1⟩
    ⟨[⟨true, 2⟩, ⟨true, 1⟩], [], 2⟩ ⟨[AllocatorEntry.new, ⟨false, 1⟩], [0, 1], 1⟩
    ⟨0, 2⟩ ⟨1, 1⟩
  exact ⟨hfull.1, hfull.2.1 (by decide) (by decide),
    hfull.2.2 (by decide) (by decide)⟩

lemma popped_index_in_bounds (a : GenerationalIndexAllocator)
    (hinv : ∀ i ∈ a.free, i < a.entries.length) :
    ∀ idx, a.free.getLast? = some idx → idx < a.entries.length := by
  intro idx h
  have hfree := eq_dropLast_append_of_getLast? h
  exact hinv idx (by rw [hfree]; simp)

lemma is_live_cases (a : GenerationalIndexAllocator) (gi : GenerationalIndex) :
    (∃ b, is_live a gi = .ok b) ∨ is_live a gi = .error .IndexOOB := by
  unfold is_live
  split_ifs
  · right
    rfl
  · left
    exact ⟨_, rfl⟩

lemma except_gi_cases {X : Type} (r : Except GenerationalIndexError X) :
    (∃ w, r = .ok w) ∨ r = .error .IndexOOB ∨
      r = .error .GenerationMismatch ∨ r = .error .NotLive := by
  cases r with
  | ok w => exact Or.inl ⟨w, rfl⟩
  | error e => cases e <;> simp

lemma except_de_cases {X : Type} (r : Except DeallocationError X) :
    (∃ w, r = .ok w) ∨ r = .error .IndexOOB ∨
      r = .error .GenerationMismatch ∨ r = .error .AlreadyDeallocated := by
  cases r with
  | ok w => exact Or.inl ⟨w, rfl⟩
  | error e => cases e <;> simp

lemma set_ok_bound {α : Type} (arr : GenerationalIndexArray α)
    (gi : GenerationalIndex) (a : GenerationalIndexAllocator) (v : α)
    (arr' : GenerationalIndexArray α) (h : arr.set gi a v = .ok arr') :
    gi.index < arr.vals.length := by
  unfold GenerationalIndexArray.set at h
  by_cases hb : arr.vals.length % 65536 ≤ gi.index
  · rw [if_pos hb] at h
    exact absurd h (by simp)
  · omega

lemma get_ok_bound {α : Type} (arr : GenerationalIndexArray α)
    (gi : GenerationalIndex) (a : GenerationalIndexAllocator)
    (w : α) (h : arr.get gi a = .ok w) : gi.index < arr.vals.length := by
  unfold GenerationalIndexArray.get at h
  by_cases hb : arr.vals.length % 65536 ≤ gi.index
  · rw [dif_pos hb] at h
    exact absurd h (by simp)
  · omega

lemma get_mut_ok_bound {α : Type} (arr : GenerationalIndexArray α)
    (gi : GenerationalIndex) (a : GenerationalIndexAllocator)
    (w : α) (h : arr.get_mut gi a = .ok w) : gi.index < arr.vals.length := by
  unfold GenerationalIndexArray.get_mut at h
  by_cases hb : arr.vals.length % 65536 ≤ gi.index
  · rw [dif_pos hb] at h
    exact absurd h (by simp)
  · omega

/-- C9: under the invariant that every free-list index is below the entry
table's length, the unchecked `entries[index]` access inside `allocate` is
in bounds (its out-of-bounds panic branch is unreachable), every array
access behind the bounds checks of `deallocate`, `is_live`, `set`, `get`
and `get_mut` is in bounds, and each operation returns a success value or
one of its declared error kinds — never an unrecoverable fault. -/
theorem core_ops_no_abort {α : Type} (a : GenerationalIndexAllocator)
    (gi : GenerationalIndex) (arr : GenerationalIndexArray α) (v : α)
    (hinv : ∀ i ∈ a.free, i < a.entries.length) :
    (∀ idx, a.free.getLast? = some idx → idx < a.entries.length) ∧
    ((∃ p, allocate a = .ok p ∧ p.1.index < a.entries.length) ∨
      allocate a = .error .mk) ∧
    (∀ a₂, deallocate a gi = .ok a₂ → gi.index < a.entries.length) ∧
    ((∃ a₂, deallocate a gi = .ok a₂) ∨ deallocate a gi = .error .IndexOOB ∨
      deallocate a gi = .error .GenerationMismatch ∨
      deallocate a gi = .error .AlreadyDeallocated) ∧
    ((∃ b, is_live a gi = .ok b) ∨ is_live a gi = .error .IndexOOB) ∧
    (∀ arr', arr.set gi a v = .ok arr' → gi.index < arr.vals.length) ∧
    ((∃ arr', arr.set gi a v = .ok arr') ∨ arr.set gi a v = .error .IndexOOB ∨
      arr.set gi a v = .error .GenerationMismatch ∨
      arr.set gi a v = .error .NotLive) ∧
    (∀ w, arr.get gi a = .ok w → gi.index < arr.vals.length) ∧
    ((∃ w, arr.get gi a = .ok w) ∨ arr.get gi a = .error .IndexOOB ∨
      arr.get gi a = .error .GenerationMismatch ∨
      arr.get gi a = .error .NotLive) ∧
    (∀ w, arr.get_mut gi a = .ok w → gi.index < arr.vals.length) ∧
    ((∃ w, arr.get_mut gi a = .ok w) ∨ arr.get_mut gi a = .error .IndexOOB ∨
      arr.get_mut gi a = .error .GenerationMismatch ∨
      arr.get_mut gi a = .error .NotLive) := by
  refine ⟨popped_index_in_bounds a hinv, ?_,
    fun a₂ h => by obtain ⟨hi, -, -, -⟩ := (deallocate_ok_iff _ _ _).mp h; omega,
    except_de_cases _, is_live_cases a gi,
    fun arr' h => set_ok_bound arr gi a v arr' h, except_gi_cases _,
    fun w h => get_ok_bound arr gi a w h, except_gi_cases _,
    fun w h => get_mut_ok_bound arr gi a w h, except_gi_cases _⟩
  cases hfl : a.free.getLast? with
  | none =>
      right
      unfold allocate
      rw [hfl]
  | some idx =>
      left
      refine ⟨(⟨idx, (a.generation_counter + 1) % 4294967296⟩,
        ⟨a.entries.set idx ⟨true, (a.generation_counter + 1) % 4294967296⟩,
         a.free.dropLast, (a.generation_counter + 1) % 4294967296⟩),
        by unfold allocate; rw [hfl], ?_⟩
      exact popped_index_in_bounds a hinv idx hfl

/-- C9 witness: the no-abort conjunction at a concrete arena, handle,
store and value. -/
theorem core_ops_no_abort_witness :
    (∀ idx, (initAllocator 1).free.getLast? = some idx →
      idx < (initAllocator 1).entries.length) ∧
    ((∃ p, allocate (initAllocator 1) = .ok p ∧
        p.1.index < (initAllocator 1).entries.length) ∨
      allocate (initAllocator 1) = .error .mk) ∧
    (∀ a₂, deallocate (initAllocator 1) ⟨0, 0⟩ = .ok a₂ →
      (⟨0, 0⟩ : GenerationalIndex).index < (initAllocator 1).entries.length) ∧
    ((∃ a₂, deallocate (initAllocator 1) ⟨0, 0⟩ = .ok a₂) ∨
      deallocate (initAllocator 1) ⟨0, 0⟩ = .error .IndexOOB ∨
      deallocate (initAllocator 1) ⟨0, 0⟩ = .error .GenerationMismatch ∨
      deallocate (initAllocator 1) ⟨0, 0⟩ = .error .AlreadyDeallocated) ∧
    ((∃ b, is_live (initAllocator 1) ⟨0, 0⟩ = .ok b) ∨
      is_live (initAllocator 1) ⟨0, 0⟩ = .error .IndexOOB) ∧
    (∀ arr', GenerationalIndexArray.set ⟨[0]⟩ ⟨0, 0⟩ (initAllocator 1) 5 = .ok arr' →
      (⟨0, 0⟩ : GenerationalIndex).index <
        (GenerationalIndexArray.vals (α := Nat) ⟨[0]⟩).length) ∧
    ((∃ arr', GenerationalIndexArray.set ⟨[0]⟩ ⟨0, 0⟩ (initAllocator 1) 5 = .ok arr') ∨
      GenerationalIndexArray.set ⟨[0]⟩ ⟨0, 0⟩ (initAllocator 1) 5 = .error .IndexOOB ∨
      GenerationalIndexArray.set ⟨[0]⟩ ⟨0, 0⟩ (initAllocator 1) 5 = .error .GenerationMismatch ∨
      GenerationalIndexArray.set ⟨[0]⟩ ⟨0, 0⟩ (initAllocator 1) 5 = .error .NotLive) ∧
    (∀ w, GenerationalIndexArray.get ⟨[0]⟩ ⟨0, 0⟩ (initAllocator 1) = .ok w →
      (⟨0, 0⟩ : GenerationalIndex).index <
        (GenerationalIndexArray.vals (α := Nat) ⟨[0]⟩).length) ∧
    ((∃ w, GenerationalIndexArray.get ⟨[0]⟩ ⟨0, 0⟩ (initAllocator 1) = .ok w) ∨
      GenerationalIndexArray.get ⟨[0]⟩ ⟨0, 0⟩ (initAllocator 1) = .error .IndexOOB ∨
      GenerationalIndexArray.get ⟨[0]⟩ ⟨0, 0⟩ (initAllocator 1) = .error .GenerationMismatch ∨
      GenerationalIndexArray.get ⟨[0]⟩ ⟨0, 0⟩ (initAllocator 1) = .error .NotLive) ∧
    (∀ w, GenerationalIndexArray.get_mut ⟨[0]⟩ ⟨0, 0⟩ (initAllocator 1) = .ok w →
      (⟨0, 0⟩ : GenerationalIndex).index <
        (GenerationalIndexArray.vals (α := Nat) ⟨[0]⟩).length) ∧
    ((∃ w, GenerationalIndexArray.get_mut ⟨[0]⟩ ⟨0, 0⟩ (initAllocator 1) = .ok w) ∨
      GenerationalIndexArray.get_mut ⟨[0]⟩ ⟨0, 0⟩ (initAllocator 1) = .error .IndexOOB ∨
      GenerationalIndexArray.get_mut ⟨[0]⟩ ⟨0, 0⟩ (initAllocator 1) = .error .GenerationMismatch ∨
      GenerationalIndexArray.get_mut ⟨[0]⟩ ⟨0, 0⟩ (initAllocator 1) = .error .NotLive) :=
  core_ops_no_abort (initAllocator 1) ⟨0, 0⟩ ⟨[0]⟩ 5 (by decide)

/-- One call in a sequence of allocator operations: an `allocate`, or a
`deallocate` of a given handle. -/
inductive AllocOp where
  | alloc : AllocOp
  | dealloc : GenerationalIndex → AllocOp

/-- Run a sequence of calls, returning the final allocator state and the
handles returned by the successful `allocate` calls, in order. -/
def runOps : GenerationalIndexAllocator → List AllocOp →
    GenerationalIndexAllocator × List GenerationalIndex
  | a, [] => (a, [])
  | a, AllocOp.alloc :: rest =>
      match allocate a with
      | .ok (h, a') =>
          let r := runOps a' rest
          (r.1, h :: r.2)
      | .error _ => runOps a rest
  | a, AllocOp.dealloc gi :: rest =>
      match deallocate a gi with
      | .ok a' => runOps a' rest
      | .error _ => runOps a rest

/-- The generations a run stamps: starting from counter `c0`, the `k`-th
successful allocation returns generation `(c0 + k + 1) % 2^32`. -/
def allocGens (c0 n : Nat) : List Nat :=
  (List.range n).map (fun k => (c0 + k + 1) % 4294967296)

lemma allocGens_succ (c0 n : Nat) :
    allocGens c0 (n + 1) =
      (c0 + 1) % 4294967296 :: allocGens ((c0 + 1) % 4294967296) n := by
  unfold allocGens
  rw [List.range_succ_eq_map, List.map_cons, List.map_map]
  congr 1
  apply List.map_congr_left
  intro k hk
  simp only [Function.comp]
  omega

lemma runOps_gens (ops : List AllocOp) : ∀ (a : GenerationalIndexAllocator),
    (runOps a ops).2.map GenerationalIndex.generation =
      allocGens a.generation_counter (runOps a ops).2.length := by
  induction ops with
  | nil =>
      intro a
      simp [runOps, allocGens]
  | cons op rest ih =>
      intro a
      cases op with
      | alloc =>
          cases hal : allocate a with
          | ok p =>
              obtain ⟨h, a'⟩ := p
              obtain ⟨S, hS, hp⟩ := (allocate_ok_iff a (h, a')).mp hal
              rw [Prod.mk.injEq] at hp
              obtain ⟨hh, ha'⟩ := hp
              simp only [runOps, hal]
              rw [List.map_cons, List.length_cons, allocGens_succ, ih a']
              rw [hh, ha']
          | error e =>
              simp only [runOps, hal]
              exact ih a
      | dealloc gi =>
          cases hd : deallocate a gi with
          | ok a' =>
              obtain ⟨-, -, -, rfl⟩ := (deallocate_ok_iff _ _ _).mp hd
              simp only [runOps, hd]
              exact ih _
          | error e =>
              simp only [runOps, hd]
              exact ih a

lemma allocGens_nodup (c0 n : Nat) (h : n ≤ 4294967296) :
    (allocGens c0 n).Nodup := by
  unfold allocGens
  refine List.Nodup.map_on ?_ (List.nodup_range n)
  intro x hx y hy hxy
  rw [List.mem_range] at hx hy
  omega

/-- C1 (amended): in any sequence of `allocate`/`deallocate` calls with at
most `2^32` successful allocations, the returned handles are pairwise
distinct (index, generation) pairs — even when two allocations reuse the
same slot index — because the global u32 generation counter increases by
one modulo `2^32` on every successful allocation and the new value is both
stored in the slot and returned in the handle. -/
theorem alloc_handles_distinct (a : GenerationalIndexAllocator)
    (ops : List AllocOp) (hN : (runOps a ops).2.length ≤ 4294967296) :
    (runOps a ops).2.Nodup := by
  have hg := runOps_gens ops a
  have hnd := allocGens_nodup a.generation_counter _ hN
  rw [← hg] at hnd
  exact List.Nodup.of_map _ hnd

/-- C1 witness: two allocations on a fresh capacity-2 arena yield
distinct handles. -/
theorem alloc_handles_distinct_witness :
    (runOps (initAllocator 2) [AllocOp.alloc, AllocOp.alloc]).2.Nodup :=
  alloc_handles_distinct (initAllocator 2) [AllocOp.alloc, AllocOp.alloc]
    (by decide)

lemma runOps_append (xs ys : List AllocOp) : ∀ (a : GenerationalIndexAllocator),
    runOps a (xs ++ ys) =
      ((runOps (runOps a xs).1 ys).1,
       (runOps a xs).2 ++ (runOps (runOps a xs).1 ys).2) := by
  induction xs with
  | nil =>
      intro a
      simp [runOps]
  | cons op rest ih =>
      intro a
      cases op with
      | alloc =>
          cases hal : allocate a with
          | ok p =>
              obtain ⟨h, a'⟩ := p
              simp only [List.cons_append, runOps, hal]
              rw [show rest.append ys = rest ++ ys from rfl, ih a']
          | error e =>
              simp only [List.cons_append, runOps, hal]
              exact ih a
      | dealloc gi =>
          cases hd : deallocate a gi with
          | ok a' =>
              simp only [List.cons_append, runOps, hd]
              exact ih a'
          | error e =>
              simp only [List.cons_append, runOps, hd]
              exact ih a

/-- The `n`-th alloc/dealloc pair on the capacity-1 arena: the dealloc
uses exactly the handle that its alloc returns. -/
def pairOps (k : Nat) : List AllocOp :=
  [AllocOp.alloc, AllocOp.dealloc ⟨0, (k + 1) % 4294967296⟩]

/-- The first `n` alloc/dealloc pairs. -/
def cexList : Nat → List AllocOp
  | 0 => []
  | n + 1 => cexList n ++ pairOps n

/-- `n` alloc/dealloc pairs followed by one more `allocate`. -/
def cexOps (n : Nat) : List AllocOp :=
  cexList n ++ [AllocOp.alloc]

lemma runOps_cexList (n : Nat) :
    runOps (initAllocator 1) (cexList n) =
      (⟨[⟨false, n % 4294967296⟩], [0], n % 4294967296⟩,
       (List.range n).map (fun k => ⟨0, (k + 1) % 4294967296⟩)) := by
  induction n with
  | zero => decide
  | succ n ih =>
      have hgc : (n % 4294967296 + 1) % 4294967296 = (n + 1) % 4294967296 := by
        omega
      have h1 : allocate ⟨[⟨false, n % 4294967296⟩], [0], n % 4294967296⟩ =
          .ok (⟨0, (n + 1) % 4294967296⟩,
            ⟨[⟨true, (n + 1) % 4294967296⟩], [], (n + 1) % 4294967296⟩) := by
        unfold allocate
        simp [hgc]
      have h2 : deallocate ⟨[⟨true, (n + 1) % 4294967296⟩], [],
            (n + 1) % 4294967296⟩ ⟨0, (n + 1) % 4294967296⟩ =
          .ok ⟨[⟨false, (n + 1) % 4294967296⟩], [0], (n + 1) % 4294967296⟩ := by
        unfold deallocate
        simp [entryAt]
      have h3 : runOps ⟨[⟨false, n % 4294967296⟩], [0], n % 4294967296⟩
            (pairOps n) =
          (⟨[⟨false, (n + 1) % 4294967296⟩], [0], (n + 1) % 4294967296⟩,
           [⟨0, (n + 1) % 4294967296⟩]) := by
        simp only [pairOps, runOps, h1, h2]
      rw [cexList, runOps_append, ih, h3, List.range_succ]
      simp

lemma cex_not_nodup :
    ¬ (runOps (initAllocator 1) (cexOps 4294967296)).2.Nodup := by
  intro hnd
  have hM : (4294967296 : Nat) % 4294967296 = 0 := by norm_num
  have hrun := runOps_cexList 4294967296
  rw [hM] at hrun
  have hstep : runOps (⟨[⟨false, 0⟩], [0], 0⟩ : GenerationalIndexAllocator)
      [AllocOp.alloc] = (⟨[⟨true, 1⟩], [], 1⟩, [⟨0, 1⟩]) := by decide
  rw [cexOps, runOps_append, hrun, hstep] at hnd
  dsimp only at hnd
  rw [List.nodup_append] at hnd
  obtain ⟨-, -, hdisj⟩ := hnd
  have hmem1 : (⟨0, 1⟩ : GenerationalIndex) ∈
      List.map (fun k => (⟨0, (k + 1) % 4294967296⟩ : GenerationalIndex))
        (List.range 4294967296) :=
    List.mem_map.mpr ⟨0, List.mem_range.mpr (by norm_num), by simp⟩
  exact hdisj hmem1 (by simp)

/-- C1 counterexample: on the capacity-1 arena, the explicit sequence of
`2^32` alloc/dealloc pairs followed by one more `allocate` makes
`2^32 + 1` successful allocations whose returned handles are NOT pairwise
distinct — the u32 generation counter wraps, so the first and last handle
are both `(slot 0, generation 1)`. -/
theorem alloc_handles_distinct_cex :
    ¬ (runOps (initAllocator 1) (cexOps 4294967296)).2.Nodup :=
  cex_not_nodup

/-- C10: the u32 generation counter increments by one modulo `2^32` on
each successful `allocate` (the new value is returned in the handle); on
the capacity-1 arena, after the explicit sequence of `2^32` successful
allocations (each followed by a deallocation) the counter has wrapped back
to its initial value, and extending that execution by one more successful
allocation yields a handle list that is not pairwise distinct. -/
theorem generation_counter_mod32 :
    (∀ (a : GenerationalIndexAllocator) (h : GenerationalIndex)
        (a' : GenerationalIndexAllocator), allocate a = .ok (h, a') →
      a'.generation_counter = (a.generation_counter + 1) % 4294967296 ∧
      h.generation = a'.generation_counter) ∧
    (runOps (initAllocator 1) (cexList 4294967296)).1.generation_counter =
      (initAllocator 1).generation_counter ∧
    ¬ (runOps (initAllocator 1) (cexOps 4294967296)).2.Nodup := by
  refine ⟨?_, ?_, cex_not_nodup⟩
  · intro a h a' hal
    obtain ⟨S, hS, hp⟩ := (allocate_ok_iff a (h, a')).mp hal
    rw [Prod.mk.injEq] at hp
    obtain ⟨hh, ha'⟩ := hp
    subst hh
    subst ha'
    exact ⟨rfl, rfl⟩
  · rw [runOps_cexList 4294967296]
    dsimp only [initAllocator, GenerationalIndexAllocator.new]

/-- C10 witness: the counter increment at a concrete allocation. -/
theorem generation_counter_mod32_witness :
    (⟨[⟨true, 1⟩], [], 1⟩ : GenerationalIndexAllocator).generation_counter =
      ((initAllocator 1).generation_counter + 1) % 4294967296 ∧
    (⟨0, 1⟩ : GenerationalIndex).generation =
      (⟨[⟨true, 1⟩], [], 1⟩ : GenerationalIndexAllocator).generation_counter :=
  generation_counter_mod32.1 (initAllocator 1) ⟨0, 1⟩ ⟨[⟨true, 1⟩], [], 1⟩
    (by decide)

/-- C8 counterexample: on the freshly initialized capacity-3 arena the
first `allocate` does NOT return (slot 0, gen 1) — the free list
`[0, 1, 2]` is a stack popped from the back, so the first handle is
(slot 2, gen 1). -/
theorem scenario_cap3_cex :
    ∃ gi a', allocate (initAllocator 3) = .ok (gi, a') ∧
      gi.index = 2 ∧ ¬ (gi.index = 0 ∧ gi.generation = 1) :=
  ⟨⟨2, 1⟩, ⟨[AllocatorEntry.new, AllocatorEntry.new, ⟨true, 1⟩], [0, 1], 1⟩,
    by decide, rfl, by decide⟩

/-- C8 (amended): the capacity-3 scenario with the source's LIFO pop
order: the three allocations return A0 = (slot 2, gen 1),
A1 = (slot 1, gen 2), A2 = (slot 0, gen 3); after deallocating A1 the
next `allocate` returns (slot 1, gen 4); `get` with A1 then fails with
`GenerationMismatch`; after `set(A3, "x")`, `get(A3)` returns `"x"`;
and one further `allocate` fails with the allocator exhausted. -/
theorem scenario_cap3 :
    allocate (initAllocator 3) =
      .ok (⟨2, 1⟩,
        ⟨[AllocatorEntry.new, AllocatorEntry.new, ⟨true, 1⟩], [0, 1], 1⟩) ∧
    allocate ⟨[AllocatorEntry.new, AllocatorEntry.new, ⟨true, 1⟩], [0, 1], 1⟩ =
      .ok (⟨1, 2⟩, ⟨[AllocatorEntry.new, ⟨true, 2⟩, ⟨true, 1⟩], [0], 2⟩) ∧
    allocate ⟨[AllocatorEntry.new, ⟨true, 2⟩, ⟨true, 1⟩], [0], 2⟩ =
      .ok (⟨0, 3⟩, ⟨[⟨true, 3⟩, ⟨true, 2⟩, ⟨true, 1⟩], [], 3⟩) ∧
    deallocate ⟨[⟨true, 3⟩, ⟨true, 2⟩, ⟨true, 1⟩], [], 3⟩ ⟨1, 2⟩ =
      .ok ⟨[⟨true, 3⟩, ⟨false, 2⟩, ⟨true, 1⟩], [1], 3⟩ ∧
    allocate ⟨[⟨true, 3⟩, ⟨false, 2⟩, ⟨true, 1⟩], [1], 3⟩ =
      .ok (⟨1, 4⟩, ⟨[⟨true, 3⟩, ⟨true, 4⟩, ⟨true, 1⟩], [], 4⟩) ∧
    GenerationalIndexArray.get ⟨["", "", ""]⟩ ⟨1, 2⟩
        ⟨[⟨true, 3⟩, ⟨true, 4⟩, ⟨true, 1⟩], [], 4⟩ =
      .error .GenerationMismatch ∧
    GenerationalIndexArray.set ⟨["", "", ""]⟩ ⟨1, 4⟩
        ⟨[⟨true, 3⟩, ⟨true, 4⟩, ⟨true, 1⟩], [], 4⟩ "x" = .ok ⟨["", "x", ""]⟩ ∧
    GenerationalIndexArray.get ⟨["", "x", ""]⟩ ⟨1, 4⟩
        ⟨[⟨true, 3⟩, ⟨true, 4⟩, ⟨true, 1⟩], [], 4⟩ = .ok "x" ∧
    allocate ⟨[⟨true, 3⟩, ⟨true, 4⟩, ⟨true, 1⟩], [], 4⟩ = .error .mk := by
  decide
